import Mathlib

/-!
Verification of the multiprocess software-decode frame transport of
gridplayer, shallowly embedded from
src/gridplayer/widgets/video_frame_vlc_sw.py.

The embedding covers:
- the decoder bridge `ImageDecoder` (lock/unlock callbacks, frame
  fingerprinting, stop),
- the worker pool slot table of `InstanceProcessVLCSW`
  (init_player_shared_data / release_player_shared_data),
- the decode worker restart protocol of `PlayerProcessSingleVLCSW`
  (load_video_st4_loaded / _restart_playback),
- the render side `VideoDriverVLCSW.process_image`.

Byte strings are modelled as `List Nat`; the multiprocessing primitives
(`SafeSharedMemory`, its lock, and `releasing`) are not part of the given
sources, so their behaviour is modelled from the specification where noted.
-/

namespace GridPlayer

/-- Modelled from the spec: `SafeSharedMemory` (gridplayer.multiprocess.
safe_shared_memory) is not among the given sources.  Per the spec (4.1) a
channel is a named memory region with a guarding lock; `allocate(size)`
reserves `size` bytes, `close()` releases the region and is safe to call
multiple times, and releasing an already-released lock raises an error
(ValueError) that callers must suppress. -/
structure SafeSharedMemory where
  locked : Bool
  closed : Bool
  allocatedSize : Option Nat
  buf : List Nat
deriving DecidableEq

/-- Modelled from the spec: `allocate(size)` reserves a region of `size`
bytes. -/
def SafeSharedMemory.allocate (m : SafeSharedMemory) (size : Nat) :
    SafeSharedMemory :=
  { m with allocatedSize := some size }

/-- Modelled from the spec: releasing the channel lock fails with ValueError
when the lock is not currently held (multiprocessing.Lock semantics, spec
error class (d) double-release). -/
def SafeSharedMemory.lock_release (m : SafeSharedMemory) :
    Except Unit SafeSharedMemory :=
  if m.locked then Except.ok { m with locked := false }
  else Except.error ()

/-- Modelled from the spec: `close()` releases OS-level resources and is safe
to call multiple times (spec 4.1). -/
def SafeSharedMemory.close (m : SafeSharedMemory) : SafeSharedMemory :=
  { m with closed := true }

/-- State of `ImageDecoder` (video_frame_vlc_sw.py lines 18-36).  Fields map
to the Python attributes `is_paused`, `_stopped`, `_width`, `_height`,
`_row_size` and `_prev_frame_head`; the shared memory handle is passed
explicitly to the operations that use it. -/
structure ImageDecoder where
  is_paused : Bool
  stopped : Bool
  width : Option Nat
  height : Option Nat
  row_size : Option Nat
  prev_frame_head : Option (List Nat)
deriving DecidableEq

/-- Constructor `ImageDecoder.__init__`: starts paused, not stopped, with no dimensions
and no retained fingerprint. -/
def ImageDecoder.init : ImageDecoder :=
  { is_paused := true
    stopped := false
    width := none
    height := none
    row_size := none
    prev_frame_head := none }

/-- Method `ImageDecoder.set_frame(width, height)`: stores the dimensions, computes
`row_size = width * 4` and allocates the shared buffer of
`height * row_size` bytes. -/
def ImageDecoder.set_frame (d : ImageDecoder) (m : SafeSharedMemory)
    (width height : Nat) : ImageDecoder × SafeSharedMemory :=
  let row_size := width * 4
  let buf_size := height * row_size
  ({ d with width := some width, height := some height,
            row_size := some row_size },
   m.allocate buf_size)

/-- Method `ImageDecoder.attach_media_player`: the tuple passed to
`video_set_format` — the pixel-format string and the stored width, height
and row size. -/
def ImageDecoder.attach_media_player (d : ImageDecoder) :
    String × Option Nat × Option Nat × Option Nat :=
  ("RV32", d.width, d.height, d.row_size)

/-- Method `ImageDecoder._is_frame_changed`: takes the first 1024 bytes of the
buffer; if they equal the retained fingerprint the frame is unchanged and
the state is untouched, otherwise the fingerprint is updated and the frame
reported changed.  (Python compares `bytes` to the initial `None`, which is
always unequal; `none` plays that role here.) -/
def ImageDecoder.is_frame_changed (d : ImageDecoder) (buf : List Nat) :
    Bool × ImageDecoder :=
  let new_frame_head := buf.take 1024
  if some new_frame_head = d.prev_frame_head then (false, d)
  else (true, { d with prev_frame_head := some new_frame_head })

/-- Result of one run of the unlock callback: the decoder state after the
call, whether the channel lock is still held on exit, and whether
`_frame_ready_cb` was invoked. -/
structure UnlockResult where
  decoder : ImageDecoder
  lock_held : Bool
  notified : Bool
deriving DecidableEq

/-- Body of `ImageDecoder.libvlc_unlock_callback` (lines 60-74).  The whole body
runs under `with releasing(lock)`; `releasing` is not among the given
sources and is modelled from the spec: the lock is released when the block
exits, on every path, so each exit path below records `lock_held := false`.
Paths: early return when stopped; early return when paused and the
fingerprint is unchanged; otherwise `_frame_ready_cb()` fires. -/
def ImageDecoder.libvlc_unlock_callback (d : ImageDecoder) (buf : List Nat) :
    UnlockResult :=
  if d.stopped then
    { decoder := d, lock_held := false, notified := false }
  else if d.is_paused then
    match d.is_frame_changed buf with
    | (false, d2) => { decoder := d2, lock_held := false, notified := false }
    | (true, d2) => { decoder := d2, lock_held := false, notified := true }
  else
    { decoder := d, lock_held := false, notified := true }

/-- Method `ImageDecoder.stop` (lines 76-83): sets `_stopped`, force-releases the
shared-memory lock with the ValueError suppressed
(`contextlib.suppress(ValueError)`), then closes the shared memory. -/
def ImageDecoder.stop (d : ImageDecoder) (m : SafeSharedMemory) :
    ImageDecoder × SafeSharedMemory :=
  let d2 := { d with stopped := true }
  let m2 :=
    match m.lock_release with
    | Except.ok m3 => m3
    | Except.error _ => m
  (d2, m2.close)

/-- Decoder-side effect of `PlayerProcessSingleVLCSW.play` (line 202):
`self.decoder.is_paused = False`. -/
def ImageDecoder.play (d : ImageDecoder) : ImageDecoder :=
  { d with is_paused := false }

/-- Decoder-side effect of `PlayerProcessSingleVLCSW.set_pause` (line 207):
`self.decoder.is_paused = is_paused`. -/
def ImageDecoder.set_pause (d : ImageDecoder) (b : Bool) : ImageDecoder :=
  { d with is_paused := b }

/-- One entry of `InstanceProcessVLCSW._memory_locks` (lines 100-107): the
flag `is_busy` (a shared int, 0 or 1) and `player_id` (a shared char array,
empty bytes when free).  The per-slot `Lock()` guards only the data buffer
and plays no role in the table bookkeeping, so it is omitted here. -/
structure Slot where
  is_busy : Bool
  player_id : String
deriving DecidableEq

/-- The slot table built in `InstanceProcessVLCSW.__init__`:
`players_per_instance` slots, each free with an empty id. -/
def mkMemoryLocks (players_per_instance : Nat) : List Slot :=
  List.replicate players_per_instance { is_busy := false, player_id := "" }

/-- Method `InstanceProcessVLCSW.init_player_shared_data` (lines 111-119): scan for
the first slot with `is_busy == 0` (the generator plus `next`), then mark it
busy and stamp the player id.  `none` models the `StopIteration` that `next`
raises when no slot is free — it propagates before any slot is written, so
the table is left unchanged. -/
def initPlayerSharedData : List Slot → String → Option (List Slot)
  | [], _ => none
  | ml :: rest, pid =>
    if ml.is_busy = false then
      some ({ is_busy := true, player_id := pid } :: rest)
    else
      match initPlayerSharedData rest pid with
      | none => none
      | some rest2 => some (ml :: rest2)

/-- Method `InstanceProcessVLCSW.release_player_shared_data` (lines 121-125):
`get_player_lock` scans for the first slot whose `player_id` equals the
given id (`next`, raising `StopIteration` when absent — `none` here), then
the id is cleared and the slot marked free. -/
def releasePlayerSharedData : List Slot → String → Option (List Slot)
  | [], _ => none
  | ml :: rest, pid =>
    if ml.player_id = pid then
      some ({ is_busy := false, player_id := "" } :: rest)
    else
      match releasePlayerSharedData rest pid with
      | none => none
      | some rest2 => some (ml :: rest2)

/-- A pool-table operation: a claim (`init_player_shared_data`) or a release
(`release_player_shared_data`) with its player id. -/
inductive PoolOp where
  | claim (pid : String)
  | release (pid : String)
deriving DecidableEq

/-- Apply one pool operation; `none` when the operation raises
`StopIteration` (does not complete). -/
def applyPoolOp (t : List Slot) : PoolOp → Option (List Slot)
  | PoolOp.claim pid => initPlayerSharedData t pid
  | PoolOp.release pid => releasePlayerSharedData t pid

/-- Run a sequence of pool operations; `some` exactly when every operation
in the sequence completed. -/
def runPoolOps (t : List Slot) : List PoolOp → Option (List Slot)
  | [] => some t
  | op :: ops =>
    match applyPoolOp t op with
    | none => none
    | some t2 => runPoolOps t2 ops

/-- Two slots may not both be busy with the same player id. -/
abbrev slotDistinct (a b : Slot) : Prop :=
  a.is_busy = true → b.is_busy = true → a.player_id ≠ b.player_id

/-- The slot-table invariant of the claim: the table keeps the size `n`
chosen at construction, no two busy slots carry the same player id, the
number of busy slots never exceeds `n`, and the id of a slot is empty exactly
when the slot is free. -/
abbrev tableInv (n : Nat) (t : List Slot) : Prop :=
  t.length = n
    ∧ t.Pairwise slotDistinct
    ∧ t.countP (fun s => s.is_busy) ≤ n
    ∧ ∀ s ∈ t, (s.player_id = "" ↔ s.is_busy = false)

/-- Precondition on a claim in the amended C3: the id is nonempty and not
carried by any currently busy slot (each live worker has a distinct id). -/
abbrev claimOK (t : List Slot) (pid : String) : Prop :=
  pid ≠ "" ∧ ∀ s ∈ t, s.is_busy = true → s.player_id ≠ pid

/-- A sequence of completed pool operations from table `t` to table `tf`
where every claim satisfies `claimOK` at its point of application. -/
inductive GoodRun : List Slot → List PoolOp → List Slot → Prop where
  | nil (t : List Slot) : GoodRun t [] t
  | claim {t t2 tf : List Slot} {pid : String} {ops : List PoolOp} :
      claimOK t pid →
      initPlayerSharedData t pid = some t2 →
      GoodRun t2 ops tf →
      GoodRun t (PoolOp.claim pid :: ops) tf
  | rel {t t2 tf : List Slot} {pid : String} {ops : List PoolOp} :
      releasePlayerSharedData t pid = some t2 →
      GoodRun t2 ops tf →
      GoodRun t (PoolOp.release pid :: ops) tf

/-- State of `PlayerProcessSingleVLCSW` as far as the load/restart protocol
is concerned.  `is_decoder_initialized` is the Python
`_is_decoder_initialized`; `media_input` is the opaque `self.media_input`
reference; `pending_load` records a queued
`cmd_send("load_video", media_input)`.  The base class `VlcPlayerThreaded`
is not among the given sources: `loaded_done` (the base
`load_video_st4_loaded` completed, worker ready to play) and `playing`
(spec state `Playing`) model its load/play stages from the spec (4.3).
`restarts` counts the stop-and-reload cycles performed by
`_restart_playback`. -/
structure Worker where
  is_decoder_initialized : Bool
  loaded_done : Bool
  playing : Bool
  restarts : Nat
  media_input : Nat
  pending_load : Option Nat
deriving DecidableEq

/-- A fresh worker about to load `media`: decoder not initialized, not
loaded, not playing, no restart performed. -/
def Worker.initWorker (media : Nat) : Worker :=
  { is_decoder_initialized := false
    loaded_done := false
    playing := false
    restarts := 0
    media_input := media
    pending_load := none }

/-- Modelled from the spec: the base-class `stop()` called by
`_restart_playback` is not among the given sources; per the spec (4.3,
Stopping) it halts playback, leaving the worker not playing and not in the
loaded state. -/
def Worker.stopBase (w : Worker) : Worker :=
  { w with playing := false, loaded_done := false }

/-- Method `PlayerProcessSingleVLCSW._init_video_decoder` (lines 211-219): marks
the decoder initialized (the dimension read, `set_frame` and
`attach_media_player` act on the decoder/memory state, embedded
separately). -/
def Worker.init_video_decoder (w : Worker) : Worker :=
  { w with is_decoder_initialized := true }

/-- Method `PlayerProcessSingleVLCSW.load_video_st2_set_parsed_media`
(lines 187-191): when the parsed media has a video track (dimensions
available), `_init_video_decoder` runs; otherwise nothing decoder-related
happens before the base-class stage continues. -/
def Worker.load_video_st2_set_parsed_media (w : Worker)
    (has_media_track : Bool) : Worker :=
  if has_media_track then w.init_video_decoder else w

/-- Method `PlayerProcessSingleVLCSW._restart_playback` (lines 221-226): stop, then
queue a reload of the same `media_input`; one stop-and-reload cycle. -/
def Worker.restart_playback (w : Worker) : Worker :=
  { w.stopBase with
    pending_load := some w.media_input
    restarts := w.restarts + 1 }

/-- Method `PlayerProcessSingleVLCSW.load_video_st4_loaded` (lines 193-199): if the
decoder was never initialized, restart instead of completing the load;
otherwise the base-class stage completes and the worker is ready to play. -/
def Worker.load_video_st4_loaded (w : Worker) : Worker :=
  if w.is_decoder_initialized = false then w.restart_playback
  else { w with loaded_done := true }

/-- Modelled from the spec: the base-class `play()` is not among the given
sources; per the spec (4.3) the play command takes a worker from
`DecoderAttached` (load completed) to `Playing`, so it has effect only once
the load has completed. -/
def Worker.play (w : Worker) : Worker :=
  if w.loaded_done then { w with playing := true } else w

/-- One load attempt as driven by the media layer: the parsed-media stage
(with or without dimensions available), then the loaded (ready) signal. -/
def Worker.loadAttempt (w : Worker) (has_media_track : Bool) : Worker :=
  (w.load_video_st2_set_parsed_media has_media_track).load_video_st4_loaded

/-- A run of consecutive load attempts, one Boolean per attempt recording
whether dimensions were available at its parse stage. -/
def Worker.runAttempts (w : Worker) (ds : List Bool) : Worker :=
  ds.foldl Worker.loadAttempt w

/-- State of `VideoDriverVLCSW` (lines 229-296) as far as `process_image`
is concerned: the stored channel handle (`_shared_memory`, `none` until
`init_frame` ran), the stored dimensions, the last computed image `_pix`,
and the warning log. -/
structure VideoDriverVLCSW where
  shared_memory : Option SafeSharedMemory
  width : Option Nat
  height : Option Nat
  pix : Option (List Nat)
  warnings : List String
deriving DecidableEq

/-- Outcome of one `process_image` call: no handle stored, the stale-handle
warning path, or a new image computed and `image_ready_sig` emitted. -/
inductive ProcessImageResult where
  | no_handle
  | warned_stale
  | image_ready
deriving DecidableEq

/-- Method `VideoDriverVLCSW.process_image` (lines 264-283).  With no stored handle
it returns at once.  Reading `memory.buf` of a channel already torn down
raises `AttributeError` — modelled from the spec (4.1: access after close
is a detectable "already released" condition) by the `closed` flag — which
is caught, logged at warning level, and the method returns with `_pix`
untouched.  Otherwise the buffer is copied into a new image and the
image-ready signal emitted. -/
def VideoDriverVLCSW.process_image (v : VideoDriverVLCSW) :
    VideoDriverVLCSW × ProcessImageResult :=
  match v.shared_memory with
  | none => (v, ProcessImageResult.no_handle)
  | some m =>
    if m.closed then
      ({ v with warnings := v.warnings ++ ["Shared memory is cleared already"] },
       ProcessImageResult.warned_stale)
    else
      ({ v with pix := some m.buf }, ProcessImageResult.image_ready)

/-! Helper lemmas about the decoder bridge. -/

theorem is_frame_changed_fst (d : ImageDecoder) (buf : List Nat) :
    (d.is_frame_changed buf).1 = true ↔
      some (buf.take 1024) ≠ d.prev_frame_head := by
  unfold ImageDecoder.is_frame_changed
  by_cases h : some (buf.take 1024) = d.prev_frame_head <;> simp [h]

theorem is_frame_changed_prev (d : ImageDecoder) (buf : List Nat) :
    ((d.is_frame_changed buf).2).prev_frame_head = some (buf.take 1024) := by
  unfold ImageDecoder.is_frame_changed
  by_cases h : some (buf.take 1024) = d.prev_frame_head <;> simp [h]

theorem is_frame_changed_of_eq (d : ImageDecoder) (buf : List Nat)
    (h : some (buf.take 1024) = d.prev_frame_head) :
    d.is_frame_changed buf = (false, d) := by
  unfold ImageDecoder.is_frame_changed
  simp [h]

theorem is_frame_changed_state (d : ImageDecoder) (buf : List Nat) :
    ((d.is_frame_changed buf).2).is_paused = d.is_paused
      ∧ ((d.is_frame_changed buf).2).stopped = d.stopped := by
  unfold ImageDecoder.is_frame_changed
  by_cases h : some (buf.take 1024) = d.prev_frame_head <;> simp [h]

theorem unlock_paused_eq (d : ImageDecoder) (buf : List Nat)
    (hs : d.stopped = false) (hp : d.is_paused = true) :
    d.libvlc_unlock_callback buf =
      { decoder := (d.is_frame_changed buf).2, lock_held := false,
        notified := (d.is_frame_changed buf).1 } := by
  unfold ImageDecoder.libvlc_unlock_callback
  rcases h : d.is_frame_changed buf with ⟨bb, d2⟩
  cases bb <;> simp [hs, hp, h]

theorem unlock_pause (d : ImageDecoder) (buf : List Nat) :
    (d.libvlc_unlock_callback buf).decoder.is_paused = d.is_paused := by
  by_cases h1 : d.stopped = true
  · simp [ImageDecoder.libvlc_unlock_callback, h1]
  · by_cases hp : d.is_paused = true
    · rw [unlock_paused_eq d buf (by simpa using h1) hp]
      exact (is_frame_changed_state d buf).1
    · simp [ImageDecoder.libvlc_unlock_callback, h1, hp]

theorem unlock_foldl_pause (bufs : List (List Nat)) :
    ∀ d : ImageDecoder, d.is_paused = true →
      (bufs.foldl (fun d2 b2 => (d2.libvlc_unlock_callback b2).decoder)
        d).is_paused = true := by
  induction bufs with
  | nil => intro d hd; simpa using hd
  | cons b bs ih =>
    intro d hd
    simp only [List.foldl_cons]
    exact ih _ (by rw [unlock_pause, hd])

/-- Claim C2: while the bridge is paused and not stopped, the unlock
callback emits the frame-ready notification exactly when the first 1024
buffer bytes differ from the retained fingerprint; a further paused unlock
whose buffer agrees with the previous one on the first 1024 bytes (a write
touching only offsets at 1024 and beyond) emits no notification; and when
not paused (and not stopped) every unlock notifies. -/
theorem C2_fingerprint_suppression (d : ImageDecoder) (b1 b2 : List Nat)
    (hs : d.stopped = false) (hp : d.is_paused = true)
    (hpre : b1.take 1024 = b2.take 1024) :
    ((d.libvlc_unlock_callback b1).notified = true ↔
        some (b1.take 1024) ≠ d.prev_frame_head)
    ∧ (((d.libvlc_unlock_callback b1).decoder.libvlc_unlock_callback
        b2).notified = false)
    ∧ (∀ (d2 : ImageDecoder) (b : List Nat), d2.stopped = false →
        d2.is_paused = false →
        (d2.libvlc_unlock_callback b).notified = true) := by
  refine ⟨?_, ?_, ?_⟩
  · rw [unlock_paused_eq d b1 hs hp]
    exact is_frame_changed_fst d b1
  · rw [unlock_paused_eq d b1 hs hp]
    have hps : ((d.is_frame_changed b1).2).stopped = false := by
      rw [(is_frame_changed_state d b1).2, hs]
    have hpp : ((d.is_frame_changed b1).2).is_paused = true := by
      rw [(is_frame_changed_state d b1).1, hp]
    rw [unlock_paused_eq _ b2 hps hpp]
    have hsame : some (b2.take 1024)
        = ((d.is_frame_changed b1).2).prev_frame_head := by
      rw [is_frame_changed_prev, ← hpre]
    simp [is_frame_changed_of_eq _ b2 hsame]
  · intro d2 b h1 h2
    simp [ImageDecoder.libvlc_unlock_callback, h1, h2]

theorem C2_witness :
    (ImageDecoder.init.libvlc_unlock_callback [1, 2, 3]).notified = true
    ∧ ((ImageDecoder.init.libvlc_unlock_callback
        [1, 2, 3]).decoder.libvlc_unlock_callback [1, 2, 3]).notified
        = false := by
  have h := C2_fingerprint_suppression ImageDecoder.init [1, 2, 3] [1, 2, 3]
    rfl rfl rfl
  exact ⟨h.1.mpr (by decide), h.2.1⟩

/-- Claim C5: the unlock callback leaves the channel lock released on every
exit path (stopped early return, paused-suppression early return, and the
notify path), and once the bridge is marked stopped the callback does
nothing beyond that release: its result does not depend on the buffer (it
never reads it), it emits no notification, and it leaves the decoder state
unchanged. -/
theorem C5_unlock_releases_lock (d : ImageDecoder) (b b2 : List Nat) :
    (d.libvlc_unlock_callback b).lock_held = false
    ∧ (d.stopped = true →
        d.libvlc_unlock_callback b = d.libvlc_unlock_callback b2
        ∧ (d.libvlc_unlock_callback b).notified = false
        ∧ (d.libvlc_unlock_callback b).decoder = d) := by
  constructor
  · unfold ImageDecoder.libvlc_unlock_callback
    rcases h : d.is_frame_changed b with ⟨bb, d2⟩
    by_cases h1 : d.stopped <;> by_cases h2 : d.is_paused <;>
      cases bb <;> simp [h1, h2, h]
  · intro hstop
    simp [ImageDecoder.libvlc_unlock_callback, hstop]

theorem C5_witness :
    ((({ ImageDecoder.init with stopped := true } :
        ImageDecoder).libvlc_unlock_callback [9]).lock_held = false)
    ∧ ({ ImageDecoder.init with stopped := true } :
        ImageDecoder).libvlc_unlock_callback [9]
      = ({ ImageDecoder.init with stopped := true } :
        ImageDecoder).libvlc_unlock_callback [] := by
  have h := C5_unlock_releases_lock
    ({ ImageDecoder.init with stopped := true }) [9] []
  exact ⟨h.1, (h.2 rfl).1⟩

/-- Claim C6: stop marks the bridge stopped, force-releases the channel
lock (the ValueError from releasing an already-unlocked lock is swallowed),
then closes the channel; afterwards the lock is down and the channel
closed, a repeat of the whole stop (release plus close a second time)
produces the same state with no error — the second release merely yields
the suppressed ValueError — and close is idempotent. -/
theorem C6_stop_teardown (d : ImageDecoder) (m : SafeSharedMemory) :
    (d.stop m).1.stopped = true
    ∧ (d.stop m).2.locked = false
    ∧ (d.stop m).2.closed = true
    ∧ (d.stop m).1.stop (d.stop m).2 = d.stop m
    ∧ (d.stop m).2.lock_release = Except.error ()
    ∧ ((d.stop m).2).close = (d.stop m).2 := by
  rcases m with ⟨l, c, a, b⟩
  cases l <;>
    simp [ImageDecoder.stop, SafeSharedMemory.lock_release,
      SafeSharedMemory.close]

/-- Claim C7: set_frame(width, height) allocates the shared channel buffer
of exactly height * row_size bytes with row_size = width * 4, for 640x480
that is exactly 640*4*480 bytes, and the stored (width, height, row_size)
triple is the one attach_media_player passes to the native pixel-format
attachment (video_set_format). -/
theorem C7_buffer_size (d : ImageDecoder) (m : SafeSharedMemory)
    (width height : Nat) :
    ((d.set_frame m width height).2.allocatedSize
        = some (height * (width * 4)))
    ∧ ((d.set_frame m 640 480).2.allocatedSize = some (640 * 4 * 480))
    ∧ ((d.set_frame m width height).1.attach_media_player
        = ("RV32", some width, some height, some (width * 4))) := by
  refine ⟨rfl, ?_, rfl⟩
  norm_num [ImageDecoder.set_frame, SafeSharedMemory.allocate]

/-- Claim C9: a fresh decoder bridge starts paused; the unlock callback,
stop and set_frame never change the pause flag, so any sequence of unlock
callbacks from construction still finds the bridge paused and the
fingerprint suppression check in effect (a paused, unstopped unlock
notifies exactly as the frame-changed check answers); only play (clearing
it) and set_pause (setting it to its argument) modify the flag. -/
theorem C9_starts_paused (d : ImageDecoder) (m : SafeSharedMemory)
    (buf : List Nat) (w h : Nat) (b : Bool) (bufs : List (List Nat))
    (hp : d.is_paused = true) (hs : d.stopped = false) :
    ImageDecoder.init.is_paused = true
    ∧ (d.libvlc_unlock_callback buf).decoder.is_paused = d.is_paused
    ∧ (d.stop m).1.is_paused = d.is_paused
    ∧ (d.set_frame m w h).1.is_paused = d.is_paused
    ∧ (ImageDecoder.play d).is_paused = false
    ∧ (d.set_pause b).is_paused = b
    ∧ (bufs.foldl (fun d2 b2 => (d2.libvlc_unlock_callback b2).decoder)
        ImageDecoder.init).is_paused = true
    ∧ (d.libvlc_unlock_callback buf).notified
        = (d.is_frame_changed buf).1 := by
  refine ⟨rfl, unlock_pause d buf, rfl, rfl, rfl, rfl,
    unlock_foldl_pause bufs ImageDecoder.init rfl, ?_⟩
  rw [unlock_paused_eq d buf hs hp]

theorem C9_witness :
    ImageDecoder.init.is_paused = true
    ∧ (ImageDecoder.init.libvlc_unlock_callback [1]).notified
        = (ImageDecoder.init.is_frame_changed [1]).1 := by
  have h := C9_starts_paused ImageDecoder.init ⟨false, false, none, []⟩
    [1] 2 2 false [[1]] rfl rfl
  exact ⟨h.1, h.2.2.2.2.2.2.2⟩

/-- Claim C10: the retained fingerprint starts absent (None); the
frame-changed check answers true exactly when the 1024-byte prefix differs
from the retained value, it updates the retained value exactly in that case
(to the new prefix) and leaves the state untouched otherwise; hence the
very first unlock after construction always notifies even though the bridge
starts paused. -/
theorem C10_first_unlock_notifies (d : ImageDecoder) (buf bufany : List Nat) :
    ImageDecoder.init.prev_frame_head = none
    ∧ ((d.is_frame_changed buf).1 = true ↔
        some (buf.take 1024) ≠ d.prev_frame_head)
    ∧ ((d.is_frame_changed buf).1 = true →
        (d.is_frame_changed buf).2.prev_frame_head = some (buf.take 1024))
    ∧ ((d.is_frame_changed buf).1 = false → (d.is_frame_changed buf).2 = d)
    ∧ (ImageDecoder.init.libvlc_unlock_callback bufany).notified = true := by
  refine ⟨rfl, is_frame_changed_fst d buf,
    fun _ => is_frame_changed_prev d buf, ?_, ?_⟩
  · unfold ImageDecoder.is_frame_changed
    by_cases hc : some (buf.take 1024) = d.prev_frame_head <;> simp [hc]
  · simp [ImageDecoder.libvlc_unlock_callback, ImageDecoder.init,
      ImageDecoder.is_frame_changed]

theorem C10_witness :
    ImageDecoder.init.prev_frame_head = none
    ∧ (ImageDecoder.init.is_frame_changed [3]).1 = true
    ∧ (ImageDecoder.init.libvlc_unlock_callback [5, 6]).notified = true := by
  have h := C10_first_unlock_notifies ImageDecoder.init [3] [5, 6]
  exact ⟨h.1, h.2.1.mpr (by decide), h.2.2.2.2⟩

/-! Helper lemmas about the slot table. -/

theorem init_mem (pid : String) :
    ∀ (t t2 : List Slot), initPlayerSharedData t pid = some t2 →
      ∀ s ∈ t2, s ∈ t ∨ s = { is_busy := true, player_id := pid } := by
  intro t
  induction t with
  | nil => intro t2 h; simp [initPlayerSharedData] at h
  | cons ml rest ih =>
    intro t2 h s hs
    rw [initPlayerSharedData] at h
    by_cases hb : ml.is_busy = false
    · rw [if_pos hb] at h
      simp only [Option.some.injEq] at h
      subst h
      rcases List.mem_cons.mp hs with h1 | h1
      · exact Or.inr h1
      · exact Or.inl (List.mem_cons_of_mem _ h1)
    · rw [if_neg hb] at h
      cases hrec : initPlayerSharedData rest pid with
      | none => rw [hrec] at h; cases h
      | some rest2 =>
        rw [hrec] at h
        simp only [Option.some.injEq] at h
        subst h
        rcases List.mem_cons.mp hs with h1 | h1
        · exact Or.inl (h1 ▸ List.mem_cons_self ml rest)
        · rcases ih rest2 hrec s h1 with h2 | h2
          · exact Or.inl (List.mem_cons_of_mem _ h2)
          · exact Or.inr h2

theorem init_preserves_inv (pid : String) (hpid : pid ≠ "") :
    ∀ (t t2 : List Slot),
      t.Pairwise slotDistinct →
      (∀ s ∈ t, s.is_busy = true → s.player_id ≠ pid) →
      (∀ s ∈ t, (s.player_id = "" ↔ s.is_busy = false)) →
      initPlayerSharedData t pid = some t2 →
      t2.Pairwise slotDistinct
        ∧ (∀ s ∈ t2, (s.player_id = "" ↔ s.is_busy = false))
        ∧ t2.length = t.length := by
  intro t
  induction t with
  | nil => intro t2 _ _ _ h; simp [initPlayerSharedData] at h
  | cons ml rest ih =>
    intro t2 hpw hfresh hiff h
    rw [initPlayerSharedData] at h
    by_cases hb : ml.is_busy = false
    · rw [if_pos hb] at h
      simp only [Option.some.injEq] at h
      subst h
      refine ⟨List.pairwise_cons.mpr ⟨?_, (List.pairwise_cons.mp hpw).2⟩,
        ?_, by simp⟩
      · intro b hbmem _ hbbusy
        exact fun he =>
          hfresh b (List.mem_cons_of_mem _ hbmem) hbbusy he.symm
      · intro s hs
        rcases List.mem_cons.mp hs with h1 | h1
        · subst h1
          simp [hpid]
        · exact hiff s (List.mem_cons_of_mem _ h1)
    · rw [if_neg hb] at h
      cases hrec : initPlayerSharedData rest pid with
      | none => rw [hrec] at h; cases h
      | some rest2 =>
        rw [hrec] at h
        simp only [Option.some.injEq] at h
        subst h
        obtain ⟨hpw2, hiff2, hlen2⟩ := ih rest2
          (List.pairwise_cons.mp hpw).2
          (fun s hs => hfresh s (List.mem_cons_of_mem _ hs))
          (fun s hs => hiff s (List.mem_cons_of_mem _ hs)) hrec
        refine ⟨List.pairwise_cons.mpr ⟨?_, hpw2⟩, ?_, by simp [hlen2]⟩
        · intro b hbmem hmlbusy hbbusy
          rcases init_mem pid rest rest2 hrec b hbmem with h1 | h1
          · exact (List.pairwise_cons.mp hpw).1 b h1 hmlbusy hbbusy
          · subst h1
            exact hfresh ml (List.mem_cons_self ml rest) hmlbusy
        · intro s hs
          rcases List.mem_cons.mp hs with h1 | h1
          · rw [h1]
            exact hiff ml (List.mem_cons_self ml rest)
          · exact hiff2 s h1

theorem release_mem (pid : String) :
    ∀ (t t2 : List Slot), releasePlayerSharedData t pid = some t2 →
      ∀ s ∈ t2, s ∈ t ∨ s = { is_busy := false, player_id := "" } := by
  intro t
  induction t with
  | nil => intro t2 h; simp [releasePlayerSharedData] at h
  | cons ml rest ih =>
    intro t2 h s hs
    rw [releasePlayerSharedData] at h
    by_cases hb : ml.player_id = pid
    · rw [if_pos hb] at h
      simp only [Option.some.injEq] at h
      subst h
      rcases List.mem_cons.mp hs with h1 | h1
      · exact Or.inr h1
      · exact Or.inl (List.mem_cons_of_mem _ h1)
    · rw [if_neg hb] at h
      cases hrec : releasePlayerSharedData rest pid with
      | none => rw [hrec] at h; cases h
      | some rest2 =>
        rw [hrec] at h
        simp only [Option.some.injEq] at h
        subst h
        rcases List.mem_cons.mp hs with h1 | h1
        · exact Or.inl (h1 ▸ List.mem_cons_self ml rest)
        · rcases ih rest2 hrec s h1 with h2 | h2
          · exact Or.inl (List.mem_cons_of_mem _ h2)
          · exact Or.inr h2

theorem release_preserves_inv (pid : String) :
    ∀ (t t2 : List Slot),
      t.Pairwise slotDistinct →
      (∀ s ∈ t, (s.player_id = "" ↔ s.is_busy = false)) →
      releasePlayerSharedData t pid = some t2 →
      t2.Pairwise slotDistinct
        ∧ (∀ s ∈ t2, (s.player_id = "" ↔ s.is_busy = false))
        ∧ t2.length = t.length := by
  intro t
  induction t with
  | nil => intro t2 _ _ h; simp [releasePlayerSharedData] at h
  | cons ml rest ih =>
    intro t2 hpw hiff h
    rw [releasePlayerSharedData] at h
    by_cases hb : ml.player_id = pid
    · rw [if_pos hb] at h
      simp only [Option.some.injEq] at h
      subst h
      refine ⟨List.pairwise_cons.mpr ⟨?_, (List.pairwise_cons.mp hpw).2⟩,
        ?_, by simp⟩
      · intro b _ hfb
        simp at hfb
      · intro s hs
        rcases List.mem_cons.mp hs with h1 | h1
        · subst h1; simp
        · exact hiff s (List.mem_cons_of_mem _ h1)
    · rw [if_neg hb] at h
      cases hrec : releasePlayerSharedData rest pid with
      | none => rw [hrec] at h; cases h
      | some rest2 =>
        rw [hrec] at h
        simp only [Option.some.injEq] at h
        subst h
        obtain ⟨hpw2, hiff2, hlen2⟩ := ih rest2
          (List.pairwise_cons.mp hpw).2
          (fun s hs => hiff s (List.mem_cons_of_mem _ hs)) hrec
        refine ⟨List.pairwise_cons.mpr ⟨?_, hpw2⟩, ?_, by simp [hlen2]⟩
        · intro b hbmem hmlbusy hbbusy
          rcases release_mem pid rest rest2 hrec b hbmem with h1 | h1
          · exact (List.pairwise_cons.mp hpw).1 b h1 hmlbusy hbbusy
          · subst h1
            simp at hbbusy
        · intro s hs
          rcases List.mem_cons.mp hs with h1 | h1
          · rw [h1]
            exact hiff ml (List.mem_cons_self ml rest)
          · exact hiff2 s h1

/-- Claim C3 as stated is false on the code: two completed claims with the
same (or empty) player id stay within capacity yet leave two busy slots
carrying one id, and a busy slot with an empty id.  Concretely, on a
two-slot table the completed sequence claim "", claim "" yields a table
violating both the uniqueness part and the empty-iff-free part of the
invariant. -/
theorem C3_counterexample :
    runPoolOps (mkMemoryLocks 2)
        [PoolOp.claim (""), PoolOp.claim ("")]
      = some [{ is_busy := true, player_id := "" },
              { is_busy := true, player_id := "" }]
    ∧ ¬ tableInv 2 [{ is_busy := true, player_id := "" },
              { is_busy := true, player_id := "" }] := by
  constructor
  · rfl
  · decide

/-- Claim C3 (amended): for every sequence of completed claim and release
operations that stays within capacity, where additionally each claim uses a
nonempty player id not carried by any currently busy slot, the table
invariant holds after each operation: the table keeps its construction
size, no two busy slots share a player id, the busy count never exceeds the
size, and the id of a slot is empty exactly when the slot is free. -/
theorem C3_table_invariant {n : Nat} {t tf : List Slot} {ops : List PoolOp}
    (hrun : GoodRun t ops tf) : tableInv n t → tableInv n tf := by
  induction hrun with
  | nil t => exact id
  | claim hok hinit hrest ih =>
    intro hinv
    apply ih
    obtain ⟨hlen, hpw, _, hiff⟩ := hinv
    obtain ⟨hpid, hfresh⟩ := hok
    obtain ⟨hpw2, hiff2, hlen2⟩ :=
      init_preserves_inv _ hpid _ _ hpw hfresh hiff hinit
    exact ⟨hlen2.trans hlen, hpw2,
      le_of_le_of_eq (List.countP_le_length _) (hlen2.trans hlen), hiff2⟩
  | rel hrel hrest ih =>
    intro hinv
    apply ih
    obtain ⟨hlen, hpw, _, hiff⟩ := hinv
    obtain ⟨hpw2, hiff2, hlen2⟩ :=
      release_preserves_inv _ _ _ hpw hiff hrel
    exact ⟨hlen2.trans hlen, hpw2,
      le_of_le_of_eq (List.countP_le_length _) (hlen2.trans hlen), hiff2⟩

theorem C3_witness :
    tableInv 2 [{ is_busy := false, player_id := "" },
                { is_busy := true, player_id := "B" }] := by
  have hrun : GoodRun (mkMemoryLocks 2)
      [PoolOp.claim ("A"), PoolOp.claim ("B"), PoolOp.release ("A")]
      [{ is_busy := false, player_id := "" },
       { is_busy := true, player_id := "B" }] := by
    apply GoodRun.claim (by decide) (by rfl)
    apply GoodRun.claim (by decide) (by rfl)
    apply GoodRun.rel (by rfl)
    exact GoodRun.nil _
  exact C3_table_invariant hrun (by decide)

/-- Claim C4: on a table where every slot is busy, a further claim always
fails — `next` raises StopIteration, the capacity-exhausted condition,
which propagates to the caller before any slot is written — so the call
never blocks and leaves the slot table unchanged. -/
theorem C4_capacity_exhausted (t : List Slot) (pid : String)
    (hfull : ∀ s ∈ t, s.is_busy = true) :
    initPlayerSharedData t pid = none
    ∧ (initPlayerSharedData t pid).getD t = t := by
  have h : initPlayerSharedData t pid = none := by
    induction t with
    | nil => rfl
    | cons ml rest ih =>
      have hml : ml.is_busy = true := hfull ml (List.mem_cons_self ml rest)
      have hrest : initPlayerSharedData rest pid = none :=
        ih (fun s hs => hfull s (List.mem_cons_of_mem _ hs))
      simp [initPlayerSharedData, hml, hrest]
  exact ⟨h, by simp [h]⟩

theorem C4_witness :
    initPlayerSharedData
        [{ is_busy := true, player_id := "A" },
         { is_busy := true, player_id := "B" }] ("C") = none :=
  (C4_capacity_exhausted _ ("C") (by decide)).1

/-! Helper lemmas about the worker load protocol. -/

theorem loadAttempt_true (w : Worker) :
    w.loadAttempt true
      = { w with is_decoder_initialized := true, loaded_done := true } := by
  rcases w with ⟨i, l, p, r, m, q⟩
  simp [Worker.loadAttempt, Worker.load_video_st2_set_parsed_media,
    Worker.init_video_decoder, Worker.load_video_st4_loaded]

theorem runAttempts_all_true :
    ∀ (rest : List Bool), (∀ d ∈ rest, d = true) → rest ≠ [] →
      ∀ w : Worker, w.runAttempts rest
        = { w with is_decoder_initialized := true, loaded_done := true } := by
  intro rest
  induction rest with
  | nil => intro _ hne; exact absurd rfl hne
  | cons d ds ih =>
    intro hrest _ w
    have hd : d = true := hrest d (List.mem_cons_self d ds)
    subst hd
    by_cases hds : ds = []
    · subst hds
      simp [Worker.runAttempts, loadAttempt_true]
    · have h2 := ih (fun x hx => hrest x (List.mem_cons_of_mem _ hx)) hds
        { w with is_decoder_initialized := true, loaded_done := true }
      simp only [Worker.runAttempts, List.foldl_cons] at h2 ⊢
      rw [loadAttempt_true, h2]

/-- Claim C1: when the loaded (ready-to-play) signal arrives while the
decoder was never initialized (dimensions not yet known, so buffer and
callbacks never attached), load_video_st4_loaded takes the restart path:
it does not complete the load and does not move toward Playing, but stops
and queues a reload of the same media reference, counting one
stop-and-reload cycle.  For any run whose first load attempt has the ready
signal strictly before dimension availability and whose reload attempts
parse with dimensions known (the restart-protocol guarantee of the spec), the
worker carries exactly one such cycle when the play command arrives, enters
Playing exactly when a reload attempt happened, and never enters Playing
without exactly one cycle. -/
theorem C1_restart_protocol (media : Nat) (rest : List Bool)
    (hrest : ∀ d ∈ rest, d = true) :
    ((Worker.initWorker media).loadAttempt false
        = ((Worker.initWorker media).load_video_st2_set_parsed_media
            false).restart_playback)
    ∧ ((Worker.initWorker media).loadAttempt false).loaded_done = false
    ∧ ((Worker.initWorker media).loadAttempt false).playing = false
    ∧ ((Worker.initWorker media).loadAttempt false).restarts = 1
    ∧ ((Worker.initWorker media).loadAttempt false).pending_load
        = some media
    ∧ (((Worker.initWorker media).runAttempts (false :: rest)).play).restarts
        = 1
    ∧ ((((Worker.initWorker media).runAttempts
          (false :: rest)).play).playing = true →
        (((Worker.initWorker media).runAttempts
          (false :: rest)).play).restarts = 1)
    ∧ (rest ≠ [] →
        (((Worker.initWorker media).runAttempts
          (false :: rest)).play).playing = true)
    ∧ (rest = [] →
        (((Worker.initWorker media).runAttempts
          (false :: rest)).play).playing = false) := by
  have hw1 : (Worker.initWorker media).loadAttempt false
      = { is_decoder_initialized := false, loaded_done := false,
          playing := false, restarts := 1, media_input := media,
          pending_load := some media } := rfl
  have hrun : ∀ hne : rest ≠ [],
      (Worker.initWorker media).runAttempts (false :: rest)
        = { is_decoder_initialized := true, loaded_done := true,
            playing := false, restarts := 1, media_input := media,
            pending_load := some media } := by
    intro hne
    have : (Worker.initWorker media).runAttempts (false :: rest)
        = ((Worker.initWorker media).loadAttempt false).runAttempts rest :=
      rfl
    rw [this, hw1, runAttempts_all_true rest hrest hne]
  refine ⟨rfl, rfl, rfl, rfl, rfl, ?_, ?_, ?_, ?_⟩
  · by_cases hne : rest = []
    · subst hne
      rfl
    · rw [hrun hne]
      rfl
  · intro _
    by_cases hne : rest = []
    · subst hne
      rfl
    · rw [hrun hne]
      rfl
  · intro hne
    rw [hrun hne]
    rfl
  · intro hne
    subst hne
    rfl


theorem C1_witness :
    (((Worker.initWorker 7).runAttempts [false, true]).play).playing = true
    ∧ (((Worker.initWorker 7).runAttempts [false, true]).play).restarts
        = 1
    ∧ ((Worker.initWorker 7).loadAttempt false).pending_load = some 7 := by
  have h := C1_restart_protocol 7 [true] (by decide)
  exact ⟨h.2.2.2.2.2.2.2.1 (by decide), h.2.2.2.2.2.1, h.2.2.2.2.1⟩

/-- Claim C8: when process_image runs after the channel was already closed
by teardown, it does not crash and does not change the computed image: it
appends the stale-handle warning to the log and reports the skipped frame,
leaving the last image in place; and when no channel handle was ever stored
the call is a complete no-op. -/
theorem C8_stale_handle (v : VideoDriverVLCSW) (m : SafeSharedMemory)
    (hm : v.shared_memory = some m) (hc : m.closed = true) :
    (v.process_image
      = ({ v with warnings :=
            v.warnings ++ ["Shared memory is cleared already"] },
         ProcessImageResult.warned_stale))
    ∧ (v.process_image).1.pix = v.pix
    ∧ (∀ v2 : VideoDriverVLCSW, v2.shared_memory = none →
        v2.process_image = (v2, ProcessImageResult.no_handle)) := by
  have h1 : v.process_image
      = ({ v with warnings :=
            v.warnings ++ ["Shared memory is cleared already"] },
         ProcessImageResult.warned_stale) := by
    unfold VideoDriverVLCSW.process_image
    rw [hm]
    simp [hc]
  refine ⟨h1, by rw [h1], ?_⟩
  intro v2 h2
  unfold VideoDriverVLCSW.process_image
  rw [h2]

theorem C8_witness :
    (VideoDriverVLCSW.process_image
        ⟨some ⟨false, true, none, []⟩, some 2, some 2, some [7], []⟩).1.pix
      = some [7] :=
  (C8_stale_handle ⟨some ⟨false, true, none, []⟩, some 2, some 2,
    some [7], []⟩ ⟨false, true, none, []⟩ rfl rfl).2.1

end GridPlayer
